import Mathlib

/-!
Verification of the object-detection-with-FPGA repository's core logic.

Shallow embedding of:
* `src/finalproject.c` — the fixed-interval-timer interrupt handler
  (`FIT_Handler`: millisecond timestamp bookkeeping and the phase
  estimator over the two edge-counter readings) and the steering-policy
  duty-cycle computation from `main`.
* `src/pwm_tmrctr.c` — the PWM timer driver (`PWM_Initialize`,
  `PWM_Start`, `PWM_Stop`, `PWM_SetParams`, `PWM_GetParams`).

Modelling conventions:
* Machine integers (`u32`, `int`, `unsigned long`) are modelled as `Nat`
  or `Int`; all concrete values handled by the claims stay far below any
  wrap-around boundary.
* The driver computes load counts through `float`/`double` intermediates.
  The model performs those computations in exact arithmetic: the real
  value of `tlr0` is `clock/freq - 2`, of `tlr1` is
  `clock*duty/(100*freq) - 2` clamped at zero, and the final `(u32)`
  cast truncates, which on these non-negative values is the floor, so the
  stored counts are expressed with `Nat` floor division and truncated
  subtraction.  `lroundf` rounds to nearest with ties away from zero,
  which for non-negative `p/q` is `(2*p + q) / (2*q)` (`roundDiv`).
* C integer division (`phase_diff * 4 / 25000`) truncates toward zero,
  which is `Int.tdiv`.
-/

/-! ### Status codes (from xstatus.h) -/

def XST_SUCCESS : Nat := 0

def XST_FAILURE : Nat := 1

def XST_INVALID_PARAM : Nat := 15

/-! ### PWM timer driver state (pwm_tmrctr.c)

The model state collects the pieces of hardware/driver state the driver
functions read or write: the `IsReady` flag of the `XTmrCtr` instance,
whether the timers are enabled (running), the two load registers
(`TLR0` = period count, `TLR1` = duty count), and the global
`clock_frequency` saved by `PWM_Initialize`. -/

structure PwmState where
  isReady : Bool
  running : Bool
  tlr0 : Nat
  tlr1 : Nat
  clock : Nat
deriving DecidableEq

/-- `PWM_MAXCNT` from pwm_tmrctr.h (4294967295.00). -/
def PWM_MAXCNT : Nat := 4294967295

/-- `PWM_Initialize` (pwm_tmrctr.c, success path): `XTmrCtr_Initialize`
clears both timer registers, the control bits are set for PWM mode but
the timers are not enabled, and the timer clock frequency is saved. -/
def PWM_Initialize (clkfreq : Nat) : PwmState :=
  { isReady := true, running := false, tlr0 := 0, tlr1 := 0, clock := clkfreq }

/-- `PWM_Start` (pwm_tmrctr.c): fails with `XST_FAILURE` when the
instance is not initialized (touching no registers); otherwise reloads
and enables the timers. -/
def PWM_Start (s : PwmState) : Nat × PwmState :=
  if s.isReady ≠ true then (XST_FAILURE, s)
  else (XST_SUCCESS, { s with running := true })

/-- `PWM_Stop` (pwm_tmrctr.c): fails with `XST_FAILURE` when the
instance is not initialized (touching no registers); otherwise disables
both timers. -/
def PWM_Stop (s : PwmState) : Nat × PwmState :=
  if s.isReady ≠ true then (XST_FAILURE, s)
  else (XST_SUCCESS, { s with running := false })

/-- `PWM_SetParams` (pwm_tmrctr.c).  Mirrors the source order:
initialization check, then the duty-cycle check (`dutyfactor > 100`),
then the range check on the computed counts, and only then
`PWM_Stop` plus the two load-register writes.

The real-valued count `tlr0 = clock/freq - 2` exceeds `PWM_MAXCNT`
iff `clock > freq * (PWM_MAXCNT + 2)`; for `freq = 0` the C float
computation yields `+inf`, which also trips the range check, so
`freq = 0` is folded into the same branch.  Similarly the clamped duty
count exceeds `PWM_MAXCNT` iff `clock * duty > 100 * freq *
(PWM_MAXCNT + 2)`.  On success the `(u32)` casts store the floors,
with the `tlr1 < 0` clamp to zero expressed by `Nat` truncated
subtraction. -/
def PWM_SetParams (s : PwmState) (freq duty : Nat) : Nat × PwmState :=
  if s.isReady ≠ true then (XST_FAILURE, s)
  else if 100 < duty then (XST_INVALID_PARAM, s)
  else if freq = 0 ∨ freq * (PWM_MAXCNT + 2) < s.clock
      ∨ 100 * freq * (PWM_MAXCNT + 2) < s.clock * duty then
    (XST_INVALID_PARAM, s)
  else
    (XST_SUCCESS,
      { s with running := false,
               tlr0 := s.clock / freq - 2,
               tlr1 := s.clock * duty / (100 * freq) - 2 })

/-- `lroundf p/q` for non-negative `p` and positive `q`: round to
nearest, ties away from zero, i.e. `⌊(p + q/2) / q⌋ = ⌊(2p + q) / (2q)⌋`.
For `q = 0` (the unguarded `tlr1 / tlr0` division in `PWM_GetParams`
with a zero period register) the C computation is a float division by
zero; the model's `Nat` division then returns the junk value 0. -/
def roundDiv (p q : Nat) : Nat := (2 * p + q) / (2 * q)

/-- `PWM_GetParams` (pwm_tmrctr.c): fails with `XST_FAILURE` when not
initialized (leaving the output pointers unwritten, modelled as `none`);
otherwise stops the timers, reads the load registers and decodes
`freq = lroundf(clock / (tlr0 + 2))` and
`duty = lroundf(100 * tlr1 / tlr0)` — the duty division is by the raw
`tlr0`, not `tlr0 + 2`, and has no zero guard. -/
def PWM_GetParams (s : PwmState) : Nat × Option (Nat × Nat) × PwmState :=
  if s.isReady ≠ true then (XST_FAILURE, none, s)
  else
    (XST_SUCCESS,
     some (roundDiv s.clock (s.tlr0 + 2), roundDiv (100 * s.tlr1) s.tlr0),
     { s with running := false })

/-! ### FIT interrupt handler state (finalproject.c) -/

/-- `FIT_COUNT_1MSEC` (finalproject.c line 74). -/
def FIT_COUNT_1MSEC : Nat := 40

structure FitState where
  clkfit : Nat
  tsInterval : Nat
  timestamp : Nat
  phaseDiff : Int
deriving DecidableEq

/-- One invocation of `FIT_Handler` (finalproject.c lines 351-409) with
the two GPIO edge-counter readings `time1` and `time2`:
toggle `clkfit`; increment `ts_interval` and, when it exceeds
`FIT_COUNT_1MSEC`, increment `timestamp` and reset `ts_interval` to 1;
then update `phase_diff` only when the leading counter is ahead by a
non-zero amount of at most 25000 ticks (the `> 25000` branches `return`
early, after the timestamp update, leaving `phase_diff` untouched; a tie
takes no branch). -/
def FIT_Handler (s : FitState) (time1 time2 : Nat) : FitState :=
  let clkfit' := s.clkfit ^^^ 1
  let tsi := s.tsInterval + 1
  let timestamp' := if FIT_COUNT_1MSEC < tsi then s.timestamp + 1 else s.timestamp
  let tsInterval' := if FIT_COUNT_1MSEC < tsi then 1 else tsi
  let phaseDiff' :=
    if time2 < time1 then
      if 25000 < time1 - time2 then s.phaseDiff
      else ((time1 - time2 : Nat) : Int)
    else if time1 < time2 then
      if 25000 < time2 - time1 then s.phaseDiff
      else -((time2 - time1 : Nat) : Int)
    else s.phaseDiff
  { clkfit := clkfit', tsInterval := tsInterval',
    timestamp := timestamp', phaseDiff := phaseDiff' }

/-- Initial state of the shared variables: `clkfit = 0` (set in `main`),
`timestamp` and the `static int ts_interval` are zero-initialized, and
`phase_diff = 0` (finalproject.c line 112). -/
def initFitState : FitState :=
  { clkfit := 0, tsInterval := 0, timestamp := 0, phaseDiff := 0 }

/-- A sequence of interrupt firings, each with its pair of edge-counter
readings. -/
def runFIT (s : FitState) (inputs : List (Nat × Nat)) : FitState :=
  inputs.foldl (fun st p => FIT_Handler st p.1 p.2) s

/-! ### Steering policy (finalproject.c, main loop) -/

/-- `SERVO_NEUTRAL_DUTY` (finalproject.c line 78). -/
def SERVO_NEUTRAL_DUTY : Int := 7

/-- The steering policy's duty-cycle computation
(finalproject.c line 181):
`pwm_duty = phase_diff * 4 / 25000 + SERVO_NEUTRAL_DUTY`,
with C `int` division truncating toward zero (`Int.tdiv`). -/
def computeDuty (pd : Int) : Int :=
  Int.tdiv (pd * 4) 25000 + SERVO_NEUTRAL_DUTY

/-! ## Claim theorems -/

/-- C1: For every prior estimate and counter pair processed by one
`FIT_Handler` invocation: if `count_a > count_b` with difference at most
25000 the published estimate becomes `+(count_a - count_b)`; if
`count_b > count_a` with difference at most 25000 it becomes
`-(count_b - count_a)`; if the difference exceeds 25000 or the counts
are equal the prior value is retained.  In particular `(10000, 9000)`
yields `+1000`, `(5000, 9000)` yields `-4000`, and `(40000, 1000)`
leaves the estimate unchanged. -/
theorem c1_phase_estimator (s : FitState) (t1 t2 : Nat) :
    (t2 < t1 → t1 - t2 ≤ 25000 →
      (FIT_Handler s t1 t2).phaseDiff = ((t1 - t2 : Nat) : Int))
  ∧ (t1 < t2 → t2 - t1 ≤ 25000 →
      (FIT_Handler s t1 t2).phaseDiff = -((t2 - t1 : Nat) : Int))
  ∧ (t2 < t1 → 25000 < t1 - t2 →
      (FIT_Handler s t1 t2).phaseDiff = s.phaseDiff)
  ∧ (t1 < t2 → 25000 < t2 - t1 →
      (FIT_Handler s t1 t2).phaseDiff = s.phaseDiff)
  ∧ (t1 = t2 → (FIT_Handler s t1 t2).phaseDiff = s.phaseDiff)
  ∧ (FIT_Handler s 10000 9000).phaseDiff = 1000
  ∧ (FIT_Handler s 5000 9000).phaseDiff = -4000
  ∧ (FIT_Handler s 40000 1000).phaseDiff = s.phaseDiff := by
  refine ⟨?_, ?_, ?_, ?_, ?_, ?_, ?_, ?_⟩
  · intro h1 h2
    simp [FIT_Handler, h1, Nat.not_lt.mpr h2]
  · intro h1 h2
    simp [FIT_Handler, h1, Nat.lt_asymm h1, Nat.not_lt.mpr h2]
  · intro h1 h2
    simp [FIT_Handler, h1, h2]
  · intro h1 h2
    simp [FIT_Handler, h1, Nat.lt_asymm h1, h2]
  · intro h
    simp [FIT_Handler, h]
  · norm_num [FIT_Handler]
  · norm_num [FIT_Handler]
  · norm_num [FIT_Handler]

/-- Witness for C1 at the concrete pair (10000, 9000). -/
theorem c1_phase_estimator_witness :
    9000 < 10000 ∧ 10000 - 9000 ≤ 25000
      ∧ (FIT_Handler initFitState 10000 9000).phaseDiff
          = ((10000 - 9000 : Nat) : Int) :=
  ⟨by decide, by decide,
    (c1_phase_estimator initFitState 10000 9000).1 (by decide) (by decide)⟩

/-- C4: The steering policy computes
`duty = phase_diff * 4 / 25000 + 7` with C truncating integer division:
`2500 ↦ 7` (0.4 truncated), `25000 ↦ 11`, `-25000 ↦ 3`.  The code
contains no explicit clamp; for every phase value satisfying the
published-estimate invariant `|phase_diff| ≤ 25000` the result already
lies in `[3, 11] ⊆ [0, 100]`, so clamping to the valid duty range is the
identity on every value the policy can produce. -/
theorem c4_steering_duty (pd : Int) (h1 : -25000 ≤ pd) (h2 : pd ≤ 25000) :
    computeDuty 2500 = 7 ∧ computeDuty 25000 = 11 ∧ computeDuty (-25000) = 3
      ∧ 3 ≤ computeDuty pd ∧ computeDuty pd ≤ 11 := by
  have key : -4 ≤ Int.tdiv (pd * 4) 25000 ∧ Int.tdiv (pd * 4) 25000 ≤ 4 := by
    rcases le_or_lt 0 pd with hp | hp
    · rw [Int.tdiv_eq_ediv (by positivity) (by norm_num)]
      constructor
      · have := Int.ediv_nonneg (a := pd * 4) (b := 25000) (by positivity) (by norm_num)
        omega
      · have h := Int.ediv_le_ediv (a := pd * 4) (b := 100000) (c := 25000)
          (by norm_num) (by omega)
        norm_num at h
        omega
    · have e : pd * 4 = -((-pd) * 4) := by ring
      rw [e, Int.neg_tdiv]
      rw [Int.tdiv_eq_ediv (by omega) (by norm_num)]
      have h0 := Int.ediv_nonneg (a := (-pd) * 4) (b := 25000) (by omega) (by norm_num)
      have h := Int.ediv_le_ediv (a := (-pd) * 4) (b := 100000) (c := 25000)
        (by norm_num) (by omega)
      norm_num at h
      omega
  refine ⟨by decide, by decide, by decide, ?_, ?_⟩
  · unfold computeDuty SERVO_NEUTRAL_DUTY
    omega
  · unfold computeDuty SERVO_NEUTRAL_DUTY
    omega

/-- Witness for C4 at the concrete phase difference 2500. -/
theorem c4_steering_duty_witness :
    (-25000 : Int) ≤ 2500 ∧ (2500 : Int) ≤ 25000
      ∧ 3 ≤ computeDuty 2500 ∧ computeDuty 2500 ≤ 11 :=
  ⟨by decide, by decide,
    (c4_steering_duty 2500 (by decide) (by decide)).2.2.2.1,
    (c4_steering_duty 2500 (by decide) (by decide)).2.2.2.2⟩

/-- Helper: a single `FIT_Handler` invocation keeps the published
estimate within ±25000. -/
theorem fitHandler_phase_bound (s : FitState) (t1 t2 : Nat)
    (h1 : -25000 ≤ s.phaseDiff) (h2 : s.phaseDiff ≤ 25000) :
    -25000 ≤ (FIT_Handler s t1 t2).phaseDiff
      ∧ (FIT_Handler s t1 t2).phaseDiff ≤ 25000 := by
  simp only [FIT_Handler]
  split_ifs <;> constructor <;> omega

/-- Helper: the ±25000 bound is preserved by any sequence of firings. -/
theorem runFIT_phase_bound (L : List (Nat × Nat)) (s : FitState)
    (h1 : -25000 ≤ s.phaseDiff) (h2 : s.phaseDiff ≤ 25000) :
    -25000 ≤ (runFIT s L).phaseDiff ∧ (runFIT s L).phaseDiff ≤ 25000 := by
  induction L generalizing s with
  | nil => exact ⟨h1, h2⟩
  | cons x L ih =>
    rw [runFIT, List.foldl_cons]
    exact ih (FIT_Handler s x.1 x.2)
      (fitHandler_phase_bound s x.1 x.2 h1 h2).1
      (fitHandler_phase_bound s x.1 x.2 h1 h2).2

/-- C5: The published `phase_diff` starts at 0, and each invocation of
the estimator either leaves it unchanged or writes a value of magnitude
at most 25000, so `|phase_diff| ≤ 25000` holds after any sequence of
interrupt firings from the initial state. -/
theorem c5_phase_invariant :
    initFitState.phaseDiff = 0
  ∧ (∀ (s : FitState) (t1 t2 : Nat),
      (FIT_Handler s t1 t2).phaseDiff = s.phaseDiff
        ∨ (-25000 ≤ (FIT_Handler s t1 t2).phaseDiff
            ∧ (FIT_Handler s t1 t2).phaseDiff ≤ 25000))
  ∧ (∀ L : List (Nat × Nat),
      -25000 ≤ (runFIT initFitState L).phaseDiff
        ∧ (runFIT initFitState L).phaseDiff ≤ 25000) := by
  refine ⟨rfl, ?_, ?_⟩
  · intro s t1 t2
    simp only [FIT_Handler]
    split_ifs
    · exact Or.inl rfl
    · right; constructor <;> omega
    · exact Or.inl rfl
    · right; constructor <;> omega
    · exact Or.inl rfl
  · intro L
    exact runFIT_phase_bound L initFitState (by decide) (by decide)

/-- C6: When `PWM_SetParams` fails, the driver state is unchanged: the
timer is not stopped and neither load register is written — every
failure return in the source happens before the `PWM_Stop` call and the
register writes. -/
theorem c6_setparams_failure_atomic (s : PwmState) (freq duty : Nat)
    (h : (PWM_SetParams s freq duty).1 ≠ XST_SUCCESS) :
    (PWM_SetParams s freq duty).2 = s := by
  unfold PWM_SetParams at *
  split_ifs at h ⊢ <;> first | rfl | simp [XST_SUCCESS] at h

/-- Witness for C6: the invalid duty cycle 150 on an initialized driver. -/
theorem c6_setparams_failure_atomic_witness :
    (PWM_SetParams (PWM_Initialize 100000000) 50 150).1 ≠ XST_SUCCESS
      ∧ (PWM_SetParams (PWM_Initialize 100000000) 50 150).2
          = PWM_Initialize 100000000 :=
  ⟨by decide,
    c6_setparams_failure_atomic (PWM_Initialize 100000000) 50 150 (by decide)⟩

/-- C8: Every driver lifecycle operation invoked before initialization
fails with the not-initialized failure (`XST_FAILURE`) and performs no
hardware register access (the returned state is the input state, and
`PWM_GetParams` writes neither output). -/
theorem c8_uninitialized_ops (s : PwmState) (freq duty : Nat)
    (h : s.isReady = false) :
    PWM_Start s = (XST_FAILURE, s)
  ∧ PWM_Stop s = (XST_FAILURE, s)
  ∧ PWM_SetParams s freq duty = (XST_FAILURE, s)
  ∧ PWM_GetParams s = (XST_FAILURE, none, s) := by
  refine ⟨?_, ?_, ?_, ?_⟩ <;>
    simp [PWM_Start, PWM_Stop, PWM_SetParams, PWM_GetParams, h]

/-- A concrete never-initialized driver state (`IsReady` unset, all
registers clear), used to exercise the not-initialized paths. -/
def uninitPwmState : PwmState :=
  { isReady := false, running := false, tlr0 := 0, tlr1 := 0, clock := 0 }

/-- Witness for C8 at a concrete uninitialized state. -/
theorem c8_uninitialized_ops_witness :
    uninitPwmState.isReady = false
      ∧ PWM_Start uninitPwmState = (XST_FAILURE, uninitPwmState) :=
  ⟨by decide, (c8_uninitialized_ops uninitPwmState 50 7 (by decide)).1⟩

/-- C10: `PWM_GetParams` computes the duty percentage by dividing the
duty load register by the raw period load register with no zero guard.
A zero period register is reachable both right after initialization
(the registers are cleared) and after `PWM_SetParams` with
`freq = clock/2` (period count `clock/freq - 2 = 0`), and in both
states `PWM_GetParams` still returns `XST_SUCCESS`, its duty division
running with divisor `tlr0 = 0` (a float division by zero in the C
code). -/
theorem c10_getparams_div_by_zero :
    (PWM_Initialize 100000000).tlr0 = 0
  ∧ (PWM_GetParams (PWM_Initialize 100000000)).1 = XST_SUCCESS
  ∧ (PWM_SetParams (PWM_Initialize 100000000) 50000000 50).1 = XST_SUCCESS
  ∧ (PWM_SetParams (PWM_Initialize 100000000) 50000000 50).2.tlr0 = 0
  ∧ (PWM_GetParams
      (PWM_SetParams (PWM_Initialize 100000000) 50000000 50).2).1
        = XST_SUCCESS := by
  refine ⟨rfl, rfl, by decide, by decide, by decide⟩

/-- C3: On an initialized driver, `PWM_SetParams` fails with the
invalid-parameter code for every `duty > 100` regardless of clock and
frequency; it fails with the same code whenever the real-valued period
count `clock/freq - 2` exceeds `2^32 - 1` (equivalently
`freq * (PWM_MAXCNT + 2) < clock`); for any `u32` clock
(`clock ≤ PWM_MAXCNT`) and `freq ≥ 1` every other call succeeds; and
the single silent correction is that a negative real-valued duty count
(`clock*duty < 200*freq`) is clamped to a stored count of zero while
the call still succeeds. -/
theorem c3_setparams_errors (s : PwmState) (freq duty : Nat)
    (hready : s.isReady = true) :
    (100 < duty → PWM_SetParams s freq duty = (XST_INVALID_PARAM, s))
  ∧ (duty ≤ 100 → freq * (PWM_MAXCNT + 2) < s.clock →
      PWM_SetParams s freq duty = (XST_INVALID_PARAM, s))
  ∧ (duty ≤ 100 → 1 ≤ freq → s.clock ≤ PWM_MAXCNT →
      (PWM_SetParams s freq duty).1 = XST_SUCCESS)
  ∧ (duty ≤ 100 → 1 ≤ freq → s.clock ≤ PWM_MAXCNT →
      s.clock * duty < 200 * freq →
      (PWM_SetParams s freq duty).1 = XST_SUCCESS
        ∧ (PWM_SetParams s freq duty).2.tlr1 = 0) := by
  refine ⟨?_, ?_, ?_, ?_⟩
  · intro h
    simp only [PWM_SetParams]
    rw [if_neg (by simp [hready]), if_pos h]
  · intro hd hrange
    simp only [PWM_SetParams]
    rw [if_neg (by simp [hready]), if_neg (by omega),
      if_pos (Or.inr (Or.inl hrange))]
  · intro hd hf hclk
    have hb : s.clock * duty ≤ PWM_MAXCNT * 100 := Nat.mul_le_mul hclk hd
    have hor : ¬ (freq = 0 ∨ freq * (PWM_MAXCNT + 2) < s.clock
        ∨ 100 * freq * (PWM_MAXCNT + 2) < s.clock * duty) := by
      unfold PWM_MAXCNT at *
      omega
    simp only [PWM_SetParams]
    rw [if_neg (by simp [hready]), if_neg (by omega), if_neg hor]
  · intro hd hf hclk hsmall
    have hb : s.clock * duty ≤ PWM_MAXCNT * 100 := Nat.mul_le_mul hclk hd
    have hor : ¬ (freq = 0 ∨ freq * (PWM_MAXCNT + 2) < s.clock
        ∨ 100 * freq * (PWM_MAXCNT + 2) < s.clock * duty) := by
      unfold PWM_MAXCNT at *
      omega
    have hdiv : s.clock * duty / (100 * freq) < 2 := by
      rw [Nat.div_lt_iff_lt_mul (by omega)]
      omega
    simp only [PWM_SetParams]
    rw [if_neg (by simp [hready]), if_neg (by omega), if_neg hor]
    refine ⟨rfl, ?_⟩
    simp
    omega

/-- Witness for C3: the invalid-duty branch at duty 150 on a freshly
initialized 100 MHz driver. -/
theorem c3_setparams_errors_witness :
    (PWM_Initialize 100000000).isReady = true ∧ 100 < 150
      ∧ PWM_SetParams (PWM_Initialize 100000000) 50 150
          = (XST_INVALID_PARAM, PWM_Initialize 100000000) :=
  ⟨by decide, by decide,
    (c3_setparams_errors (PWM_Initialize 100000000) 50 150 (by decide)).1
      (by decide)⟩

/-- A concrete initialized and running driver state used to refute the
unconditional form of the idempotence claim. -/
def runningPwmState : PwmState :=
  { isReady := true, running := true, tlr0 := 5, tlr1 := 3,
    clock := 100000000 }

/-- C7 counterexample: on an initialized driver that is running, calling
`PWM_SetParams` twice with the identical (invalid) arguments
`freq = 50, duty = 200` leaves the driver running after each call — the
duty check returns before `PWM_Stop` — so "the driver is in the Stopped
state after each call" fails as stated. -/
theorem c7_idempotence_counterexample :
    runningPwmState.isReady = true
  ∧ (PWM_SetParams runningPwmState 50 200).2.running = true
  ∧ (PWM_SetParams (PWM_SetParams runningPwmState 50 200).2 50 200).2.running
      = true
  ∧ ¬ ((PWM_SetParams runningPwmState 50 200).2.running = false) := by
  decide

/-- C7 amended: calling `PWM_SetParams` twice with identical arguments
on an initialized driver, when the call is valid (returns
`XST_SUCCESS`), produces identical load-register contents after each
call and leaves the driver stopped after each call; the second call
succeeds as well. -/
theorem c7_idempotence_amended (s : PwmState) (freq duty : Nat)
    (hready : s.isReady = true)
    (hsucc : (PWM_SetParams s freq duty).1 = XST_SUCCESS) :
    (PWM_SetParams s freq duty).2.running = false
  ∧ (PWM_SetParams (PWM_SetParams s freq duty).2 freq duty).1 = XST_SUCCESS
  ∧ (PWM_SetParams (PWM_SetParams s freq duty).2 freq duty).2.running = false
  ∧ (PWM_SetParams (PWM_SetParams s freq duty).2 freq duty).2.tlr0
      = (PWM_SetParams s freq duty).2.tlr0
  ∧ (PWM_SetParams (PWM_SetParams s freq duty).2 freq duty).2.tlr1
      = (PWM_SetParams s freq duty).2.tlr1 := by
  have hg1 : ¬ (s.isReady ≠ true) := by simp [hready]
  have hg2 : ¬ (100 < duty) := by
    intro h
    unfold PWM_SetParams at hsucc
    rw [if_neg hg1, if_pos h] at hsucc
    simp [XST_INVALID_PARAM, XST_SUCCESS] at hsucc
  have hg3 : ¬ (freq = 0 ∨ freq * (PWM_MAXCNT + 2) < s.clock
      ∨ 100 * freq * (PWM_MAXCNT + 2) < s.clock * duty) := by
    intro h
    unfold PWM_SetParams at hsucc
    rw [if_neg hg1, if_neg hg2, if_pos h] at hsucc
    simp [XST_INVALID_PARAM, XST_SUCCESS] at hsucc
  have hstate : (PWM_SetParams s freq duty).2
      = { s with running := false, tlr0 := s.clock / freq - 2,
                 tlr1 := s.clock * duty / (100 * freq) - 2 } := by
    unfold PWM_SetParams
    rw [if_neg hg1, if_neg hg2, if_neg hg3]
  rw [hstate]
  unfold PWM_SetParams
  dsimp only
  rw [if_neg hg1, if_neg hg2, if_neg hg3]
  simp

/-- Witness for C7 amended at a concrete valid call on a fresh 100 MHz
driver. -/
theorem c7_idempotence_amended_witness :
    (PWM_Initialize 100000000).isReady = true
  ∧ (PWM_SetParams (PWM_Initialize 100000000) 50 7).1 = XST_SUCCESS
  ∧ (PWM_SetParams
      (PWM_SetParams (PWM_Initialize 100000000) 50 7).2 50 7).2.running
        = false :=
  ⟨by decide, by decide,
    (c7_idempotence_amended (PWM_Initialize 100000000) 50 7 (by decide)
      (by decide)).2.2.1⟩

/-- Unfolding one firing of the run. -/
theorem runFIT_cons (s : FitState) (x : Nat × Nat) (L : List (Nat × Nat)) :
    runFIT s (x :: L) = runFIT (FIT_Handler s x.1 x.2) L := rfl

/-- Helper: evolution of the timestamp counters over a run.  From any
state with `1 ≤ ts_interval ≤ 40` (every state reached after at least
one firing), `n` further firings advance the timestamp by
`(ts_interval + n - 1) / 40` and leave
`ts_interval = (ts_interval + n - 1) % 40 + 1`. -/
theorem runFIT_ts (L : List (Nat × Nat)) (s : FitState)
    (h1 : 1 ≤ s.tsInterval) (h2 : s.tsInterval ≤ 40) :
    (runFIT s L).timestamp
        = s.timestamp + (s.tsInterval + L.length - 1) / 40
      ∧ (runFIT s L).tsInterval
        = (s.tsInterval + L.length - 1) % 40 + 1 := by
  induction L generalizing s with
  | nil =>
    refine ⟨?_, ?_⟩ <;> (simp [runFIT]; omega)
  | cons x L ih =>
    rw [runFIT_cons]
    have e1 : (FIT_Handler s x.1 x.2).timestamp
        = if 40 < s.tsInterval + 1 then s.timestamp + 1 else s.timestamp := rfl
    have e2 : (FIT_Handler s x.1 x.2).tsInterval
        = if 40 < s.tsInterval + 1 then 1 else s.tsInterval + 1 := rfl
    have h1' : 1 ≤ (FIT_Handler s x.1 x.2).tsInterval := by
      rw [e2]; split_ifs <;> omega
    have h2' : (FIT_Handler s x.1 x.2).tsInterval ≤ 40 := by
      rw [e2]; split_ifs <;> omega
    obtain ⟨ih1, ih2⟩ := ih (FIT_Handler s x.1 x.2) h1' h2'
    rw [List.length_cons]
    refine ⟨?_, ?_⟩
    · rw [ih1, e1, e2]
      split_ifs <;> omega
    · rw [ih2, e2]
      split_ifs <;> omega

/-- C9 counterexample: after exactly 40 firings from the initial state
the timestamp has advanced by 0, not 1 — `ts_interval` starts at 0 and
the `>` comparison with reset to 1 defers the first increment to the
41st firing — refuting "after 40*k firings the timestamp has advanced
by exactly k" at k = 1. -/
theorem c9_timestamp_counterexample :
    (List.replicate 40 ((0, 0) : Nat × Nat)).length = 40 * 1
      ∧ (runFIT initFitState (List.replicate 40 ((0, 0) : Nat × Nat))).timestamp
          = 0
      ∧ ¬ ((runFIT initFitState
            (List.replicate 40 ((0, 0) : Nat × Nat))).timestamp = 1) := by
  set_option maxRecDepth 4000 in decide

/-- C9 amended: the first timestamp increment occurs on the 41st firing
and every 40th firing thereafter: for every k and every input sequence
of length `40*k + 1`, the timestamp after the run is exactly k (so
after `40*k` firings it has advanced by `k - 1` for `k ≥ 1`, not `k`). -/
theorem c9_timestamp_amended (k : Nat) (L : List (Nat × Nat))
    (hlen : L.length = 40 * k + 1) :
    (runFIT initFitState L).timestamp = k := by
  cases L with
  | nil => simp at hlen
  | cons x L =>
    rw [runFIT_cons]
    have e1 : (FIT_Handler initFitState x.1 x.2).timestamp = 0 := rfl
    have e2 : (FIT_Handler initFitState x.1 x.2).tsInterval = 1 := rfl
    obtain ⟨ih1, _⟩ := runFIT_ts L (FIT_Handler initFitState x.1 x.2)
      (by rw [e2]) (by rw [e2]; omega)
    rw [ih1, e1, e2]
    rw [List.length_cons] at hlen
    omega

/-- Witness for C9 amended: 41 firings advance the timestamp to exactly 1. -/
theorem c9_timestamp_amended_witness :
    (List.replicate 41 ((0, 0) : Nat × Nat)).length = 40 * 1 + 1
      ∧ (runFIT initFitState
          (List.replicate 41 ((0, 0) : Nat × Nat))).timestamp = 1 :=
  ⟨by decide,
    c9_timestamp_amended 1 (List.replicate 41 ((0, 0) : Nat × Nat))
      (by decide)⟩

/-- C2 counterexample: at clock 100 MHz, `freq = 30000`, `duty = 50`,
the call succeeds, the stored period count is `⌊10^8/30000⌋ - 2 = 3331`,
and `PWM_GetParams` decodes `round(10^8/3333) = 30003` — an error of
3 Hz, refuting the claimed ±1 Hz recovery (the quantization of the
period count dominates any float rounding of the C intermediates). -/
theorem c2_roundtrip_counterexample :
    (PWM_SetParams (PWM_Initialize 100000000) 30000 50).1 = XST_SUCCESS
  ∧ (PWM_SetParams (PWM_Initialize 100000000) 30000 50).2.tlr0 = 3331
  ∧ (PWM_GetParams
      (PWM_SetParams (PWM_Initialize 100000000) 30000 50).2).2.1
        = some (30003, 50)
  ∧ 30000 + 1 < 30003 := by
  refine ⟨by decide, by decide, by decide, by decide⟩

/-- C2 amended: under the exact-arithmetic reading of the driver's
float computations, the set/get round trip is only guaranteed when the
frequency divides the clock and the period `clock/freq` is at least
601 ticks; in that range both the frequency and the duty cycle are
recovered exactly (hence within ±1).  Outside it the recovery error can
exceed ±1, as the counterexample shows. -/
theorem c2_roundtrip_amended (clock freq duty : Nat)
    (hclk : clock ≤ PWM_MAXCNT) (hdvd : clock % freq = 0)
    (hP : 601 ≤ clock / freq) (hd : duty ≤ 100) :
    (PWM_SetParams (PWM_Initialize clock) freq duty).1 = XST_SUCCESS
      ∧ (PWM_GetParams (PWM_SetParams (PWM_Initialize clock) freq duty).2).2.1
          = some (freq, duty) := by
  have hfreq : 1 ≤ freq := by
    rcases Nat.eq_zero_or_pos freq with h | h
    · subst h
      rw [Nat.mod_zero] at hdvd
      rw [Nat.div_zero] at hP
      omega
    · exact h
  have hPf : clock / freq * freq = clock :=
    Nat.div_mul_cancel (Nat.dvd_of_mod_eq_zero hdvd)
  set P := clock / freq with hPdef
  have hb : clock * duty ≤ PWM_MAXCNT * 100 := Nat.mul_le_mul hclk hd
  have hg3 : ¬ (freq = 0 ∨ freq * (PWM_MAXCNT + 2) < clock
      ∨ 100 * freq * (PWM_MAXCNT + 2) < clock * duty) := by
    unfold PWM_MAXCNT at *
    omega
  have hstate : (PWM_SetParams (PWM_Initialize clock) freq duty).2
      = { isReady := true, running := false, tlr0 := clock / freq - 2,
          tlr1 := clock * duty / (100 * freq) - 2, clock := clock } := by
    unfold PWM_SetParams PWM_Initialize
    dsimp only
    rw [if_neg (by simp), if_neg (by omega), if_neg hg3]
  have hstatus : (PWM_SetParams (PWM_Initialize clock) freq duty).1
      = XST_SUCCESS := by
    unfold PWM_SetParams PWM_Initialize
    dsimp only
    rw [if_neg (by simp), if_neg (by omega), if_neg hg3]
  refine ⟨hstatus, ?_⟩
  rw [hstate]
  unfold PWM_GetParams
  rw [if_neg (by simp)]
  dsimp only
  have ht0 : clock / freq - 2 + 2 = P := by omega
  have hfreq_comp : roundDiv clock P = freq := by
    unfold roundDiv
    rw [← hPf]
    have h2 : 2 * (P * freq) + P = P * (2 * freq + 1) := by ring
    have h3 : 2 * P = P * 2 := by ring
    rw [h2, h3, Nat.mul_div_mul_left _ _ (by omega : 0 < P)]
    omega
  have ht1 : clock * duty / (100 * freq) = P * duty / 100 := by
    have e : clock * duty = P * duty * freq := by
      rw [← hPf]; ring
    rw [e, Nat.mul_div_mul_right _ _ hfreq]
  have hduty_comp : roundDiv (100 * (P * duty / 100 - 2)) (P - 2) = duty := by
    rcases Nat.eq_zero_or_pos duty with h0 | h1
    · subst h0
      simp [roundDiv]
      exact Nat.div_eq_of_lt (by omega)
    · set m := P * duty with hm_def
      set q := m / 100 with hq_def
      have hqr : 100 * q + m % 100 = m := Nat.div_add_mod m 100
      have hr : m % 100 < 100 := Nat.mod_lt _ (by omega)
      have hm : P ≤ m := by
        rw [hm_def]
        exact Nat.le_mul_of_pos_right P h1
      have hq : 6 ≤ q := by omega
      have ed : duty * (2 * (P - 2)) = 2 * (m - 2 * duty) := by
        have step1 : duty * (2 * (P - 2)) = ((P - 2) * duty) * 2 := by ring
        have step2 : (P - 2) * duty = P * duty - 2 * duty := tsub_mul P 2 duty
        rw [step1, step2, ← hm_def]
        ring
      have hm2 : 2 * duty ≤ m := by
        rw [hm_def]
        calc 2 * duty = duty * 2 := by ring
          _ ≤ duty * P := Nat.mul_le_mul_left duty (by omega)
          _ = P * duty := by ring
      unfold roundDiv
      apply Nat.div_eq_of_lt_le
      · rw [ed]; omega
      · have expand : (duty + 1) * (2 * (P - 2))
            = duty * (2 * (P - 2)) + 2 * (P - 2) := by ring
        rw [expand, ed]
        omega
  rw [ht0, ht1, hfreq_comp, hduty_comp]

/-- Witness for C2 amended: the servo's own operating point, 50 Hz at
7% duty on the 100 MHz clock (period 2000000 ticks, which divides the
clock), is recovered exactly. -/
theorem c2_roundtrip_amended_witness :
    100000000 ≤ PWM_MAXCNT ∧ 100000000 % 50 = 0
      ∧ 601 ≤ 100000000 / 50 ∧ 7 ≤ 100
      ∧ (PWM_GetParams
          (PWM_SetParams (PWM_Initialize 100000000) 50 7).2).2.1
            = some (50, 7) :=
  ⟨by decide, by decide, by decide, by decide,
    (c2_roundtrip_amended 100000000 50 7 (by decide) (by decide) (by decide)
      (by decide)).2⟩
